import Mathlib

/-!
# Verification of the ump-keyboard core

Shallow embedding of the core logic of the `ump-keyboard` repository:

* the UMP SysEx7 reassembly state machine of
  `KeyboardController::onMidiInput` (src/keyboard_controller.cpp),
* the connection-pair edge detector `KeyboardController::updateUIConnectionState`,
* the `MidiCIManager` session (src/midi_ci_manager.cpp): discovery/endpoint
  reply handlers, the pending-property-request tracker with its 30-second
  expiry sweep, `getAllCtrlList`, `getProgramList`, `initialize`, `shutdown`.

Machine integers are modelled as `Nat` with explicit division/modulo by powers
of two where the C++ code uses shifts and masks.  External collaborators
(the cmidi2 SysEx7 encoder, the midicci property facade and its JSON codec)
are modelled from the specification and marked as such in doc comments.
-/

namespace UmpKeyboard

/-! ## UMP SysEx7 packets (KeyboardController::onMidiInput) -/

/-- A UMP packet: four 32-bit words, modelled as natural numbers
(`libremidi::ump.data[0..3]`). -/
structure UmpPacket where
  word0 : Nat
  word1 : Nat
  word2 : Nat
  word3 : Nat
deriving DecidableEq, Repr

/-- `(packet.data[0] >> 28) & 0xF` — the UMP message-type nibble. -/
def messageType (p : UmpPacket) : Nat := p.word0 / 2 ^ 28 % 16

/-- `(packet.data[0] >> 24) & 0xF` — the group nibble. -/
def packetGroup (p : UmpPacket) : Nat := p.word0 / 2 ^ 24 % 16

/-- `(packet.data[0] >> 20) & 0xF` — the SysEx7 status nibble
(0 = complete, 1 = start, 2 = continue, 3 = end). -/
def packetStatus (p : UmpPacket) : Nat := p.word0 / 2 ^ 20 % 16

/-- `(packet.data[0] >> 16) & 0xF` — the number-of-bytes nibble. -/
def numberOfBytes (p : UmpPacket) : Nat := p.word0 / 2 ^ 16 % 16

/-- Modelled from the spec: the cmidi2 helper `cmidi2_ump_get_byte_from_uint64`
(external library), per §4.1: byte `idx` of the 64-bit concatenation
`word0:word1`, big-endian byte indexing. -/
def byteFromUint64 (v idx : Nat) : Nat := v / 2 ^ (8 * (7 - idx)) % 256

/-- `(uint64)data[0] << 32 | data[1]` — the 64-bit concatenation of the two
words carrying SysEx7 payload bytes. -/
def umpData64 (p : UmpPacket) : Nat := p.word0 * 2 ^ 32 + p.word1

/-- The payload-byte extraction loop
`for (i = 0; i < number_of_bytes && i < 6; i++) cmidi2_ump_get_byte_from_uint64(ump_data, 2 + i)`. -/
def payloadBytes (p : UmpPacket) : List Nat :=
  (List.range (min (numberOfBytes p) 6)).map (fun i => byteFromUint64 (umpData64 p) (2 + i))

/-- The SysEx reassembly state of `KeyboardController`:
`sysex_buffer_` and `sysex_in_progress_`. -/
structure SysExState where
  buffer : List Nat
  inProgress : Bool
deriving DecidableEq, Repr

/-- The SysEx7 branch of `KeyboardController::onMidiInput`: processes one UMP
packet, returning the new state together with the buffer handed to
`processSysExForMidiCI` (if any). Non-SysEx7 message types are ignored. -/
def onUmpPacket (st : SysExState) (p : UmpPacket) : SysExState × Option (List Nat) :=
  if messageType p = 3 then
    if packetStatus p = 0 then
      -- complete in one packet: clear, frame, deliver, inProgress := false
      let buf := 0xF0 :: (payloadBytes p ++ [0xF7])
      ({ buffer := buf, inProgress := false }, some buf)
    else if packetStatus p = 1 then
      -- start: clear, 0xF0, payload, inProgress := true
      ({ buffer := 0xF0 :: payloadBytes p, inProgress := true }, none)
    else if packetStatus p = 2 then
      -- continue: require inProgress, append payload
      if st.inProgress then ({ st with buffer := st.buffer ++ payloadBytes p }, none)
      else (st, none)
    else if packetStatus p = 3 then
      -- end: require inProgress, append payload and 0xF7, deliver
      if st.inProgress then
        let buf := st.buffer ++ (payloadBytes p ++ [0xF7])
        ({ buffer := buf, inProgress := false }, some buf)
      else (st, none)
    else (st, none)
  else (st, none)

/-- Feed a list of packets in order, collecting every delivered buffer. -/
def feedPackets (st : SysExState) : List UmpPacket → SysExState × List (List Nat)
  | [] => (st, [])
  | p :: rest =>
      let r := onUmpPacket st p
      let r2 := feedPackets r.1 rest
      (r2.1, r.2.toList ++ r2.2)

/-- Modelled from the spec: one packet of the external cmidi2 encoder
(`cmidi2_ump_sysex7_process`, not part of src/), per §4.1 and the outbound
wire format of §6: word0 = type nibble 0x3, group nibble, status nibble,
byte-count nibble, then up to 6 payload bytes across word0's low 16 bits and
word1. -/
def mkSysEx7Packet (group status : Nat) (chunk : List Nat) : UmpPacket where
  word0 := 3 * 2 ^ 28 + group % 16 * 2 ^ 24 + status * 2 ^ 20 + chunk.length * 2 ^ 16
             + chunk.getD 0 0 * 2 ^ 8 + chunk.getD 1 0
  word1 := chunk.getD 2 0 * 2 ^ 24 + chunk.getD 3 0 * 2 ^ 16
             + chunk.getD 4 0 * 2 ^ 8 + chunk.getD 5 0
  word2 := 0
  word3 := 0

/-- Modelled from the spec: the continue/end tail of the fragmentation —
each remaining ≤6-byte chunk becomes a continue packet, the last an end
packet. -/
def encodeSysEx7Rest (group : Nat) : List Nat → List UmpPacket
  | b0 :: b1 :: b2 :: b3 :: b4 :: b5 :: b6 :: rest =>
      mkSysEx7Packet group 2 [b0, b1, b2, b3, b4, b5] :: encodeSysEx7Rest group (b6 :: rest)
  | chunk => [mkSysEx7Packet group 3 chunk]

/-- Modelled from the spec: `encode(group, payload)` of §4.1 — a single
complete-status packet when the payload fits in 6 bytes, otherwise a
start packet followed by continue…/end packets of ≤6-byte chunks. -/
def encodeSysEx7 (group : Nat) : List Nat → List UmpPacket
  | b0 :: b1 :: b2 :: b3 :: b4 :: b5 :: b6 :: rest =>
      mkSysEx7Packet group 1 [b0, b1, b2, b3, b4, b5] :: encodeSysEx7Rest group (b6 :: rest)
  | payload => [mkSysEx7Packet group 0 payload]

/-! ## Connection pair state (KeyboardController::updateUIConnectionState) -/

/-- `KeyboardController::hasValidMidiPair`: both ports open. -/
def hasValidMidiPair (inputOpen outputOpen : Bool) : Bool := inputOpen && outputOpen

/-- The stored `previousConnectionState` of `KeyboardController`. -/
structure ConnUIState where
  previousConnectionState : Bool
deriving DecidableEq, Repr

/-- `KeyboardController::updateUIConnectionState`, with the two port-open flags
made explicit inputs: computes `current = hasValidMidiPair`, and when it
differs from the stored previous value updates the store and invokes the
connection-changed callback with `current` (returned as `some current`);
otherwise no callback (`none`). -/
def updateUIConnectionState (st : ConnUIState) (inputOpen outputOpen : Bool) :
    ConnUIState × Option Bool :=
  let current := hasValidMidiPair inputOpen outputOpen
  if current ≠ st.previousConnectionState then
    ({ previousConnectionState := current }, some current)
  else
    (st, none)

/-- Run a sequence of `updateUIConnectionState` evaluations, collecting every
callback invocation in order. -/
def runConnEvaluations (st : ConnUIState) : List (Bool × Bool) → ConnUIState × List Bool
  | [] => (st, [])
  | (i, o) :: rest =>
      let r := updateUIConnectionState st i o
      let r2 := runConnEvaluations r.1 rest
      (r2.1, r.2.toList ++ r2.2)

/-! ## MidiCIManager (src/midi_ci_manager.cpp) -/

/-- `StandardPropertyNames::ALL_CTRL_LIST` (external constant, spelling fixed
by the property-exchange contract). -/
def ALL_CTRL_LIST : String := "AllCtrlList"

/-- `StandardPropertyNames::PROGRAM_LIST`. -/
def PROGRAM_LIST : String := "ProgramList"

/-- `MidiCIManager::PendingPropertyRequest`: `(muid, property_name,
request_time)`; the constructor stamps the current steady-clock time. -/
structure PendingPropertyRequest where
  muid : Nat
  propertyName : String
  requestTime : Nat
deriving DecidableEq, Repr

/-- `MidiCIDeviceInfo` (midi_ci_manager.h): one discovered MIDI-CI peer.
The constructor initializes `endpoint_ready` to false. -/
structure MidiCIDeviceInfo where
  muid : Nat
  deviceName : String
  manufacturer : String
  model : String
  version : String
  supportedFeatures : Nat
  maxSysExSize : Nat
  endpointReady : Bool
deriving DecidableEq, Repr

/-- The `MidiCIDeviceInfo` constructor: `endpoint_ready(false)`. -/
def mkMidiCIDeviceInfo (m : Nat) (name mfg mdl ver : String) (features sysexSize : Nat) :
    MidiCIDeviceInfo :=
  ⟨m, name, mfg, mdl, ver, features, sysexSize, false⟩

/-- The mutable state of `MidiCIManager`: `muid_`, `initialized_`, the
`device_`/`config_` unique_ptrs (modelled as presence flags),
`discovered_devices_` and `pending_property_requests_`.  Steady-clock
timestamps are natural numbers counted in seconds. -/
structure MgrState where
  muid : Nat
  initialized : Bool
  hasDevice : Bool
  hasConfig : Bool
  discovered : List MidiCIDeviceInfo
  pending : List PendingPropertyRequest
deriving DecidableEq, Repr

/-- `MidiCIManager::isPropertyRequestPending` (`std::any_of`). -/
def isPropertyRequestPending (pending : List PendingPropertyRequest) (muid : Nat)
    (propertyName : String) : Bool :=
  pending.any (fun req => req.muid = muid && req.propertyName = propertyName)

/-- `MidiCIManager::addPendingPropertyRequest`: appends a fresh entry stamped
`now` unless one already exists for the `(muid, property_name)` pair. -/
def addPendingPropertyRequest (pending : List PendingPropertyRequest) (muid : Nat)
    (propertyName : String) (now : Nat) : List PendingPropertyRequest :=
  if isPropertyRequestPending pending muid propertyName then pending
  else pending ++ [⟨muid, propertyName, now⟩]

/-- `MidiCIManager::removePendingPropertyRequest` (`std::remove_if` + erase):
removes every entry for the pair. -/
def removePendingPropertyRequest (pending : List PendingPropertyRequest) (muid : Nat)
    (propertyName : String) : List PendingPropertyRequest :=
  pending.filter (fun req => !(req.muid = muid && req.propertyName = propertyName))

/-- `MidiCIManager::cleanupExpiredPropertyRequests`: removes every entry whose
age on the steady clock strictly exceeds the 30-second timeout. -/
def cleanupExpiredPropertyRequests (pending : List PendingPropertyRequest) (now : Nat) :
    List PendingPropertyRequest :=
  pending.filter (fun req => !(now - req.requestTime > 30))

/-- Result of a property query: the manager state afterwards, the
`send_get_property_data` requests issued through the connection's property
client facade (as `(muid, resource)` pairs, in order), and the returned
`std::optional`. -/
structure PropertyQueryResult (α : Type) where
  state : MgrState
  sent : List (Nat × String)
  result : Option (List α)
deriving Repr

/-- `MidiCIManager::getAllCtrlList`.  The external midicci facade is modelled
by `conn`: `none` when `device_->get_connection(muid)` is null, otherwise
`some cached` where `cached` is what
`StandardPropertiesExtensions::getAllCtrlList(*properties)` returns (the
parsed cached value, a black-box codec result).  `now` is the steady-clock
instant of the call. -/
def getAllCtrlList {α : Type} (st : MgrState) (muid : Nat) (conn : Option (Option (List α)))
    (now : Nat) : PropertyQueryResult α :=
  if !st.initialized || !st.hasDevice then ⟨st, [], none⟩
  else
    match conn with
    | none => ⟨st, [], none⟩
    | some cached =>
        -- clean up expired requests first
        let st1 : MgrState := { st with pending := cleanupExpiredPropertyRequests st.pending now }
        -- if we have no data OR we have valid but empty data, we need to request it
        let requestBranch : Option (List α) → PropertyQueryResult α := fun ret =>
          if isPropertyRequestPending st1.pending muid ALL_CTRL_LIST then ⟨st1, [], none⟩
          else
            let st2 : MgrState :=
              { st1 with pending := addPendingPropertyRequest st1.pending muid ALL_CTRL_LIST now }
            -- safety check on the property-name constant, then send; falls
            -- through to `return ret` — the cached value, not nullopt
            if ALL_CTRL_LIST.isEmpty then ⟨st2, [], none⟩
            else ⟨st2, [(muid, ALL_CTRL_LIST)], ret⟩
        match cached with
        | none => requestBranch none
        | some l =>
            if l.isEmpty then requestBranch (some l)
            else
              ⟨{ st1 with
                  pending := removePendingPropertyRequest st1.pending muid ALL_CTRL_LIST },
                [], some l⟩

/-- `MidiCIManager::getProgramList`.  `conn = some found` models an existing
connection whose property values contain `ProgramList` iff `found = some l`,
with `l` the (black-box) `parseProgramList` result — note the pending-request
check here happens before the cache lookup, unlike `getAllCtrlList`. -/
def getProgramList {β : Type} (st : MgrState) (muid : Nat) (conn : Option (Option (List β)))
    (now : Nat) : PropertyQueryResult β :=
  if !st.initialized || !st.hasDevice then ⟨st, [], none⟩
  else
    match conn with
    | none => ⟨st, [], none⟩
    | some found =>
        let st1 : MgrState := { st with pending := cleanupExpiredPropertyRequests st.pending now }
        if isPropertyRequestPending st1.pending muid PROGRAM_LIST then ⟨st1, [], none⟩
        else
          match found with
          | some l =>
              ⟨{ st1 with
                  pending := removePendingPropertyRequest st1.pending muid PROGRAM_LIST },
                [], some l⟩
          | none =>
              ⟨{ st1 with
                  pending := addPendingPropertyRequest st1.pending muid PROGRAM_LIST now },
                [(muid, PROGRAM_LIST)], none⟩

/-- The DiscoveryReply branch of the message-received callback installed by
`MidiCIManager::setupCallbacks`: unseen MUID → append a placeholder device and
fire the devices-changed callback once; known MUID → no-op.  Returns the new
state and the number of devices-changed notifications fired. -/
def onDiscoveryReply (st : MgrState) (sourceMuid : Nat) : MgrState × Nat :=
  if st.discovered.any (fun d => d.muid = sourceMuid) then (st, 0)
  else
    ({ st with discovered := st.discovered ++
        [mkMidiCIDeviceInfo sourceMuid "MIDI-CI Device" "Unknown" "MIDI-CI Device" "1.0" 0 4096] },
      1)

/-- The lookup-and-mark loop of the EndpointReply branch: set
`endpoint_ready = true` on the first device with the given MUID (`break`
after the first hit); `none` when no device matches. -/
def markEndpointReady : List MidiCIDeviceInfo → Nat → Option (List MidiCIDeviceInfo)
  | [], _ => none
  | d :: rest, m =>
      if d.muid = m then some ({ d with endpointReady := true } :: rest)
      else
        match markEndpointReady rest m with
        | some rest' => some (d :: rest')
        | none => none

/-- The EndpointReply branch of the message-received callback: mark the
device with the source MUID endpoint-ready and fire devices-changed once;
unknown MUID → log a warning only, no state change, no notification. -/
def onEndpointReply (st : MgrState) (sourceMuid : Nat) : MgrState × Nat :=
  match markEndpointReady st.discovered sourceMuid with
  | some devs => ({ st with discovered := devs }, 1)
  | none => (st, 0)

/-- An incoming MIDI-CI reply handled by the message-received callback. -/
inductive CIEvent where
  | discoveryReply (muid : Nat)
  | endpointReply (muid : Nat)
deriving DecidableEq, Repr

/-- Dispatch one incoming reply. -/
def stepCI (st : MgrState) : CIEvent → MgrState × Nat
  | .discoveryReply m => onDiscoveryReply st m
  | .endpointReply m => onEndpointReply st m

/-- Process a sequence of incoming replies, summing the devices-changed
notifications fired. -/
def runCI (st : MgrState) : List CIEvent → MgrState × Nat
  | [] => (st, 0)
  | e :: es =>
      let r := stepCI st e
      let r2 := runCI r.1 es
      (r2.1, r.2 + r2.2)

/-- `MidiCIManager::initialize`: no-op success when already initialized;
otherwise adopt the given MUID, or — when it is zero — the pseudo-random draw
`generated` masked with `0x7F7F7F7F`, then create config and device.  Returns
the new state and the boolean result. -/
def initializeMgr (st : MgrState) (muid generated : Nat) : MgrState × Bool :=
  if st.initialized then (st, true)
  else
    let m := if muid = 0 then Nat.land generated 0x7F7F7F7F else muid
    ({ st with muid := m, hasConfig := true, hasDevice := true, initialized := true }, true)

/-- `MidiCIManager::clearDiscoveredDevices`: clears the registry and the
pending table and fires devices-changed once. -/
def clearDiscoveredDevices (st : MgrState) : MgrState × Nat :=
  ({ st with discovered := [], pending := [] }, 1)

/-- `MidiCIManager::shutdown`: no-op when not initialized; otherwise clear all
state via `clearDiscoveredDevices`, drop device and config, and reset
`initialized_` — `muid_` is left untouched. -/
def shutdown (st : MgrState) : MgrState × Nat :=
  if !st.initialized then (st, 0)
  else
    let r := clearDiscoveredDevices st
    ({ r.1 with hasDevice := false, hasConfig := false, initialized := false }, r.2)

/-- `MidiCIManager::getMuid`. -/
def getMuid (st : MgrState) : Nat := st.muid

/-- The uniqueness invariant on the pending table: no two entries share the
`(muid, property_name)` key. -/
def atMostOnePerKey (l : List PendingPropertyRequest) : Prop :=
  l.Pairwise (fun a b => ¬(a.muid = b.muid ∧ a.propertyName = b.propertyName))

/-! ## Proofs -/

lemma encodeSysEx7Rest_small (g : Nat) (payload : List Nat) (h : payload.length ≤ 6) :
    encodeSysEx7Rest g payload = [mkSysEx7Packet g 3 payload] := by
  rcases payload with _ | ⟨a, _ | ⟨b, _ | ⟨c, _ | ⟨d, _ | ⟨e, _ | ⟨f, _ | ⟨x, t⟩⟩⟩⟩⟩⟩⟩ <;>
    first
      | rfl
      | (simp only [List.length_cons] at h; omega)

lemma encodeSysEx7Rest_large (g : Nat) (payload : List Nat) (h : 6 < payload.length) :
    encodeSysEx7Rest g payload =
      mkSysEx7Packet g 2 (payload.take 6) :: encodeSysEx7Rest g (payload.drop 6) := by
  rcases payload with _ | ⟨a, _ | ⟨b, _ | ⟨c, _ | ⟨d, _ | ⟨e, _ | ⟨f, _ | ⟨x, t⟩⟩⟩⟩⟩⟩⟩ <;>
    first
      | (simp only [List.length_cons, List.length_nil] at h; omega)
      | rfl

lemma encodeSysEx7_small (g : Nat) (payload : List Nat) (h : payload.length ≤ 6) :
    encodeSysEx7 g payload = [mkSysEx7Packet g 0 payload] := by
  rcases payload with _ | ⟨a, _ | ⟨b, _ | ⟨c, _ | ⟨d, _ | ⟨e, _ | ⟨f, _ | ⟨x, t⟩⟩⟩⟩⟩⟩⟩ <;>
    first
      | rfl
      | (simp only [List.length_cons] at h; omega)

lemma encodeSysEx7_large (g : Nat) (payload : List Nat) (h : 6 < payload.length) :
    encodeSysEx7 g payload =
      mkSysEx7Packet g 1 (payload.take 6) :: encodeSysEx7Rest g (payload.drop 6) := by
  rcases payload with _ | ⟨a, _ | ⟨b, _ | ⟨c, _ | ⟨d, _ | ⟨e, _ | ⟨f, _ | ⟨x, t⟩⟩⟩⟩⟩⟩⟩ <;>
    first
      | (simp only [List.length_cons, List.length_nil] at h; omega)
      | rfl

lemma getD_lt_of_forall (c : List Nat) (h : ∀ b ∈ c, b < 256) (j : Nat) : c.getD j 0 < 256 := by
  rcases lt_or_ge j c.length with hj | hj
  · have hmem : c.getD j 0 ∈ c := by
      rw [List.getD_eq_getElem c 0 hj]
      exact List.getElem_mem hj
    exact h _ hmem
  · rw [List.getD_eq_default c 0 hj]
    norm_num

lemma map_getD_range (c : List Nat) : (List.range c.length).map (fun i => c.getD i 0) = c := by
  induction c with
  | nil => rfl
  | cons a t ih =>
    rw [List.length_cons, List.range_succ_eq_map, List.map_cons, List.map_map]
    have : (fun i => (a :: t).getD i 0) ∘ Nat.succ = fun i => t.getD i 0 := by
      funext i
      simp [Function.comp, List.getD_cons_succ]
    rw [this, ih]
    simp [List.getD_cons_zero]

/-- The six payload-byte positions of the packed 64-bit SysEx7 value. -/
lemma pack64_byte_extract (gq s n b0 b1 b2 b3 b4 b5 : Nat) (h0 : b0 < 256) (h1 : b1 < 256)
    (h2 : b2 < 256) (h3 : b3 < 256) (h4 : b4 < 256) (h5 : b5 < 256) :
    ((3 * 2 ^ 28 + gq * 2 ^ 24 + s * 2 ^ 20 + n * 2 ^ 16 + b0 * 2 ^ 8 + b1) * 2 ^ 32
        + (b2 * 2 ^ 24 + b3 * 2 ^ 16 + b4 * 2 ^ 8 + b5)) / 2 ^ 40 % 256 = b0 ∧
      ((3 * 2 ^ 28 + gq * 2 ^ 24 + s * 2 ^ 20 + n * 2 ^ 16 + b0 * 2 ^ 8 + b1) * 2 ^ 32
        + (b2 * 2 ^ 24 + b3 * 2 ^ 16 + b4 * 2 ^ 8 + b5)) / 2 ^ 32 % 256 = b1 ∧
      ((3 * 2 ^ 28 + gq * 2 ^ 24 + s * 2 ^ 20 + n * 2 ^ 16 + b0 * 2 ^ 8 + b1) * 2 ^ 32
        + (b2 * 2 ^ 24 + b3 * 2 ^ 16 + b4 * 2 ^ 8 + b5)) / 2 ^ 24 % 256 = b2 ∧
      ((3 * 2 ^ 28 + gq * 2 ^ 24 + s * 2 ^ 20 + n * 2 ^ 16 + b0 * 2 ^ 8 + b1) * 2 ^ 32
        + (b2 * 2 ^ 24 + b3 * 2 ^ 16 + b4 * 2 ^ 8 + b5)) / 2 ^ 16 % 256 = b3 ∧
      ((3 * 2 ^ 28 + gq * 2 ^ 24 + s * 2 ^ 20 + n * 2 ^ 16 + b0 * 2 ^ 8 + b1) * 2 ^ 32
        + (b2 * 2 ^ 24 + b3 * 2 ^ 16 + b4 * 2 ^ 8 + b5)) / 2 ^ 8 % 256 = b4 ∧
      ((3 * 2 ^ 28 + gq * 2 ^ 24 + s * 2 ^ 20 + n * 2 ^ 16 + b0 * 2 ^ 8 + b1) * 2 ^ 32
        + (b2 * 2 ^ 24 + b3 * 2 ^ 16 + b4 * 2 ^ 8 + b5)) / 2 ^ 0 % 256 = b5 := by
  refine ⟨?_, ?_, ?_, ?_, ?_, ?_⟩ <;> omega

/-- Decoding the fields of an encoded SysEx7 packet recovers status and chunk. -/
lemma mkSysEx7Packet_fields (g s : Nat) (c : List Nat) (hs : s < 16) (hlen : c.length ≤ 6)
    (hb : ∀ b ∈ c, b < 256) :
    messageType (mkSysEx7Packet g s c) = 3 ∧ packetStatus (mkSysEx7Packet g s c) = s ∧
      payloadBytes (mkSysEx7Packet g s c) = c := by
  have h0 := getD_lt_of_forall c hb 0
  have h1 := getD_lt_of_forall c hb 1
  have h2 := getD_lt_of_forall c hb 2
  have h3 := getD_lt_of_forall c hb 3
  have h4 := getD_lt_of_forall c hb 4
  have h5 := getD_lt_of_forall c hb 5
  have hmt : messageType (mkSysEx7Packet g s c) = 3 := by
    simp only [messageType, mkSysEx7Packet]
    omega
  have hst : packetStatus (mkSysEx7Packet g s c) = s := by
    simp only [packetStatus, mkSysEx7Packet]
    omega
  have hnb : numberOfBytes (mkSysEx7Packet g s c) = c.length := by
    simp only [numberOfBytes, mkSysEx7Packet]
    omega
  have hbyte : ∀ i < c.length,
      byteFromUint64 (umpData64 (mkSysEx7Packet g s c)) (2 + i) = c.getD i 0 := by
    have hg : g % 16 < 16 := Nat.mod_lt _ (by norm_num)
    obtain ⟨e0, e1, e2, e3, e4, e5⟩ :=
      pack64_byte_extract (g % 16) s c.length (c.getD 0 0) (c.getD 1 0) (c.getD 2 0)
        (c.getD 3 0) (c.getD 4 0) (c.getD 5 0) h0 h1 h2 h3 h4 h5
    intro i hi
    have hi6 : i < 6 := lt_of_lt_of_le hi hlen
    simp only [byteFromUint64, umpData64, mkSysEx7Packet]
    interval_cases i
    · simpa using e0
    · simpa using e1
    · simpa using e2
    · simpa using e3
    · simpa using e4
    · simpa using e5
  refine ⟨hmt, hst, ?_⟩
  have hmin : min (numberOfBytes (mkSysEx7Packet g s c)) 6 = c.length := by
    rw [hnb]; omega
  unfold payloadBytes
  rw [hmin]
  calc (List.range c.length).map (fun i => byteFromUint64 (umpData64 (mkSysEx7Packet g s c)) (2 + i))
      = (List.range c.length).map (fun i => c.getD i 0) :=
        List.map_congr_left (fun i hi => hbyte i (List.mem_range.mp hi))
    _ = c := map_getD_range c

lemma onUmpPacket_complete (st : SysExState) (g : Nat) (c : List Nat)
    (hlen : c.length ≤ 6) (hb : ∀ b ∈ c, b < 256) :
    onUmpPacket st (mkSysEx7Packet g 0 c) =
      (⟨0xF0 :: (c ++ [0xF7]), false⟩, some (0xF0 :: (c ++ [0xF7]))) := by
  obtain ⟨hmt, hst, hpb⟩ := mkSysEx7Packet_fields g 0 c (by norm_num) hlen hb
  simp [onUmpPacket, hmt, hst, hpb]

lemma onUmpPacket_start (st : SysExState) (g : Nat) (c : List Nat)
    (hlen : c.length ≤ 6) (hb : ∀ b ∈ c, b < 256) :
    onUmpPacket st (mkSysEx7Packet g 1 c) = (⟨0xF0 :: c, true⟩, none) := by
  obtain ⟨hmt, hst, hpb⟩ := mkSysEx7Packet_fields g 1 c (by norm_num) hlen hb
  simp [onUmpPacket, hmt, hst, hpb]

lemma onUmpPacket_continue (buf : List Nat) (g : Nat) (c : List Nat)
    (hlen : c.length ≤ 6) (hb : ∀ b ∈ c, b < 256) :
    onUmpPacket ⟨buf, true⟩ (mkSysEx7Packet g 2 c) = (⟨buf ++ c, true⟩, none) := by
  obtain ⟨hmt, hst, hpb⟩ := mkSysEx7Packet_fields g 2 c (by norm_num) hlen hb
  simp [onUmpPacket, hmt, hst, hpb]

lemma onUmpPacket_end (buf : List Nat) (g : Nat) (c : List Nat)
    (hlen : c.length ≤ 6) (hb : ∀ b ∈ c, b < 256) :
    onUmpPacket ⟨buf, true⟩ (mkSysEx7Packet g 3 c) =
      (⟨buf ++ (c ++ [0xF7]), false⟩, some (buf ++ (c ++ [0xF7]))) := by
  obtain ⟨hmt, hst, hpb⟩ := mkSysEx7Packet_fields g 3 c (by norm_num) hlen hb
  simp [onUmpPacket, hmt, hst, hpb]

lemma take_drop_append_eq (l tail : List Nat) (n : Nat) :
    l.take n ++ (l.drop n ++ tail) = l ++ tail := by
  rw [← List.append_assoc, List.take_append_drop]

lemma feedPackets_encodeRest (g : Nat) :
    ∀ n (payload : List Nat), payload.length ≤ n → (∀ b ∈ payload, b < 256) → ∀ buf : List Nat,
      feedPackets ⟨buf, true⟩ (encodeSysEx7Rest g payload) =
        (⟨buf ++ (payload ++ [0xF7]), false⟩, [buf ++ (payload ++ [0xF7])]) := by
  intro n
  induction n with
  | zero =>
    intro payload hlen hb buf
    rw [encodeSysEx7Rest_small g payload (by omega)]
    simp [feedPackets, onUmpPacket_end buf g payload (by omega) hb]
  | succ n ih =>
    intro payload hlen hb buf
    by_cases h6 : payload.length ≤ 6
    · rw [encodeSysEx7Rest_small g payload h6]
      simp [feedPackets, onUmpPacket_end buf g payload h6 hb]
    · push_neg at h6
      rw [encodeSysEx7Rest_large g payload h6]
      have htake : (payload.take 6).length ≤ 6 := by
        simp [List.length_take]
      have hbtake : ∀ b ∈ payload.take 6, b < 256 :=
        fun b hm => hb b (List.take_subset 6 payload hm)
      have hbdrop : ∀ b ∈ payload.drop 6, b < 256 :=
        fun b hm => hb b (List.drop_subset 6 payload hm)
      have hdroplen : (payload.drop 6).length ≤ n := by
        simp only [List.length_drop]
        omega
      simp only [feedPackets, onUmpPacket_continue buf g (payload.take 6) htake hbtake,
        ih (payload.drop 6) hdroplen hbdrop (buf ++ payload.take 6)]
      rw [List.append_assoc buf, take_drop_append_eq]
      simp

lemma feedPackets_encode (g : Nat) (payload : List Nat) (st : SysExState)
    (hb : ∀ b ∈ payload, b < 256) :
    feedPackets st (encodeSysEx7 g payload) =
      (⟨0xF0 :: (payload ++ [0xF7]), false⟩, [0xF0 :: (payload ++ [0xF7])]) := by
  by_cases h6 : payload.length ≤ 6
  · rw [encodeSysEx7_small g payload h6]
    simp [feedPackets, onUmpPacket_complete st g payload h6 hb]
  · push_neg at h6
    rw [encodeSysEx7_large g payload h6]
    have htake : (payload.take 6).length ≤ 6 := by
      simp [List.length_take]
    have hbtake : ∀ b ∈ payload.take 6, b < 256 :=
      fun b hm => hb b (List.take_subset 6 payload hm)
    have hbdrop : ∀ b ∈ payload.drop 6, b < 256 :=
      fun b hm => hb b (List.drop_subset 6 payload hm)
    simp only [feedPackets, onUmpPacket_start st g (payload.take 6) htake hbtake,
      feedPackets_encodeRest g (payload.drop 6).length (payload.drop 6) le_rfl hbdrop
        (0xF0 :: payload.take 6)]
    simp only [List.cons_append, Option.toList_none, List.nil_append]
    rw [take_drop_append_eq]

/-- C1: for every byte-valued payload and every group, encoding the payload into
UMP SysEx7 packets (one complete packet when it fits in 6 bytes, else a
start/continue…/end sequence of ≤6-byte chunks) and feeding the packets to the
reassembler in the order produced yields exactly one delivered buffer, equal to
`0xF0 ++ payload ++ 0xF7`, with `sysex_in_progress_` false afterwards —
from any starting reassembler state. -/
theorem sysex7_encode_decode_roundtrip (g : Nat) (payload : List Nat) (st : SysExState)
    (hb : ∀ b ∈ payload, b < 256) :
    (feedPackets st (encodeSysEx7 g payload)).2 = [0xF0 :: (payload ++ [0xF7])] ∧
      (feedPackets st (encodeSysEx7 g payload)).1.inProgress = false := by
  rw [feedPackets_encode g payload st hb]
  exact ⟨rfl, rfl⟩

theorem sysex7_encode_decode_roundtrip_witness :
    (feedPackets ⟨[], false⟩ (encodeSysEx7 0 [1, 2, 3, 4, 5, 6, 7, 8])).2 =
        [[0xF0, 1, 2, 3, 4, 5, 6, 7, 8, 0xF7]] ∧
      (feedPackets ⟨[], false⟩ (encodeSysEx7 0 [1, 2, 3, 4, 5, 6, 7, 8])).1.inProgress = false := by
  have h := sysex7_encode_decode_roundtrip 0 [1, 2, 3, 4, 5, 6, 7, 8] ⟨[], false⟩ (by decide)
  simpa using h

/-- C2: a Continue (2) or End (3) SysEx7 packet arriving while
`sysex_in_progress_` is false, and any SysEx7 packet whose 4-bit status nibble
exceeds 3, leaves the reassembly buffer and the in-progress flag unchanged and
delivers no complete SysEx buffer. -/
theorem sysex7_out_of_order_ignored (st : SysExState) (p : UmpPacket)
    (hmt : messageType p = 3)
    (h : ((packetStatus p = 2 ∨ packetStatus p = 3) ∧ st.inProgress = false) ∨
      3 < packetStatus p) :
    onUmpPacket st p = (st, none) := by
  unfold onUmpPacket
  rcases h with ⟨h23, hip⟩ | hgt
  · rcases h23 with hcase | hcase <;> simp [hmt, hcase, hip]
  · have h0 : packetStatus p ≠ 0 := by omega
    have h1 : packetStatus p ≠ 1 := by omega
    have h2 : packetStatus p ≠ 2 := by omega
    have h3 : packetStatus p ≠ 3 := by omega
    simp [hmt, h0, h1, h2, h3]

theorem sysex7_out_of_order_ignored_witness :
    onUmpPacket ⟨[9], false⟩ ⟨0x30200000, 0, 0, 0⟩ = (⟨[9], false⟩, none) :=
  sysex7_out_of_order_ignored ⟨[9], false⟩ ⟨0x30200000, 0, 0, 0⟩ (by decide)
    (Or.inl ⟨Or.inl (by decide), rfl⟩)


/-! ## Pending property requests: basic lemmas -/

lemma isPending_eq_true_iff (pending : List PendingPropertyRequest) (m : Nat) (p : String) :
    isPropertyRequestPending pending m p = true ↔
      ∃ req ∈ pending, req.muid = m ∧ req.propertyName = p := by
  unfold isPropertyRequestPending
  rw [List.any_eq_true]
  constructor
  · rintro ⟨req, hmem, hreq⟩
    simp only [Bool.and_eq_true, decide_eq_true_eq] at hreq
    exact ⟨req, hmem, hreq.1, hreq.2⟩
  · rintro ⟨req, hmem, h1, h2⟩
    exact ⟨req, hmem, by simp [h1, h2]⟩

lemma mem_cleanup_iff (pending : List PendingPropertyRequest) (now : Nat)
    (req : PendingPropertyRequest) :
    req ∈ cleanupExpiredPropertyRequests pending now ↔
      req ∈ pending ∧ now - req.requestTime ≤ 30 := by
  unfold cleanupExpiredPropertyRequests
  rw [List.mem_filter]
  constructor
  · rintro ⟨hmem, hkeep⟩
    simp only [Bool.not_eq_true', decide_eq_false_iff_not] at hkeep
    exact ⟨hmem, by omega⟩
  · rintro ⟨hmem, hage⟩
    refine ⟨hmem, ?_⟩
    simp only [Bool.not_eq_true', decide_eq_false_iff_not]
    omega

lemma getAllCtrlList_requests {α : Type} (st : MgrState) (muid now : Nat)
    (cached : Option (List α)) (hinit : st.initialized = true) (hdev : st.hasDevice = true)
    (hempty : cached = none ∨ cached = some [])
    (hnp : isPropertyRequestPending (cleanupExpiredPropertyRequests st.pending now) muid
      ALL_CTRL_LIST = false) :
    getAllCtrlList st muid (some cached) now =
      ⟨{ st with pending := cleanupExpiredPropertyRequests st.pending now
          ++ [⟨muid, ALL_CTRL_LIST, now⟩] },
        [(muid, ALL_CTRL_LIST)], cached⟩ := by
  unfold getAllCtrlList
  rw [hinit, hdev]
  have hadd : addPendingPropertyRequest (cleanupExpiredPropertyRequests st.pending now) muid
      ALL_CTRL_LIST now =
      cleanupExpiredPropertyRequests st.pending now ++ [⟨muid, ALL_CTRL_LIST, now⟩] := by
    unfold addPendingPropertyRequest
    rw [hnp]
    simp
  have hne : ALL_CTRL_LIST.isEmpty = false := by decide
  rcases hempty with rfl | rfl <;>
    simp [hnp, hadd, hne]

lemma getAllCtrlList_already_pending {α : Type} (st : MgrState) (muid now : Nat)
    (cached : Option (List α)) (hinit : st.initialized = true) (hdev : st.hasDevice = true)
    (hempty : cached = none ∨ cached = some [])
    (hp : isPropertyRequestPending (cleanupExpiredPropertyRequests st.pending now) muid
      ALL_CTRL_LIST = true) :
    getAllCtrlList st muid (some cached) now =
      ⟨{ st with pending := cleanupExpiredPropertyRequests st.pending now }, [], none⟩ := by
  unfold getAllCtrlList
  rw [hinit, hdev]
  rcases hempty with rfl | rfl <;> simp [hp]

lemma getAllCtrlList_cached_nonempty {α : Type} (st : MgrState) (muid now : Nat)
    (l : List α) (hne : l ≠ []) (hinit : st.initialized = true) (hdev : st.hasDevice = true) :
    getAllCtrlList st muid (some (some l)) now =
      ⟨{ st with pending := removePendingPropertyRequest (cleanupExpiredPropertyRequests st.pending now) muid ALL_CTRL_LIST },
        [], some l⟩ := by
  unfold getAllCtrlList
  rw [hinit, hdev]
  have hl : l.isEmpty = false := by
    simpa [List.isEmpty_iff] using hne
  simp [hl]

lemma getAllCtrlList_not_ready {α : Type} (st : MgrState) (muid : Nat)
    (conn : Option (Option (List α))) (now : Nat)
    (h : (!st.initialized || !st.hasDevice) = true) :
    getAllCtrlList st muid conn now = ⟨st, [], none⟩ := by
  unfold getAllCtrlList
  rw [if_pos h]

lemma getAllCtrlList_no_connection {α : Type} (st : MgrState) (muid now : Nat) :
    getAllCtrlList (α := α) st muid none now = ⟨st, [], none⟩ := by
  unfold getAllCtrlList
  split
  · rfl
  · rfl

lemma getProgramList_not_ready {β : Type} (st : MgrState) (muid : Nat)
    (conn : Option (Option (List β))) (now : Nat)
    (h : (!st.initialized || !st.hasDevice) = true) :
    getProgramList st muid conn now = ⟨st, [], none⟩ := by
  unfold getProgramList
  rw [if_pos h]

lemma getProgramList_no_connection {β : Type} (st : MgrState) (muid now : Nat) :
    getProgramList (β := β) st muid none now = ⟨st, [], none⟩ := by
  unfold getProgramList
  split
  · rfl
  · rfl

lemma getProgramList_already_pending {β : Type} (st : MgrState) (muid now : Nat)
    (found : Option (List β)) (hinit : st.initialized = true) (hdev : st.hasDevice = true)
    (hp : isPropertyRequestPending (cleanupExpiredPropertyRequests st.pending now) muid
      PROGRAM_LIST = true) :
    getProgramList st muid (some found) now =
      ⟨{ st with pending := cleanupExpiredPropertyRequests st.pending now }, [], none⟩ := by
  unfold getProgramList
  rw [hinit, hdev]
  simp [hp]

lemma getProgramList_found {β : Type} (st : MgrState) (muid now : Nat) (l : List β)
    (hinit : st.initialized = true) (hdev : st.hasDevice = true)
    (hnp : isPropertyRequestPending (cleanupExpiredPropertyRequests st.pending now) muid
      PROGRAM_LIST = false) :
    getProgramList st muid (some (some l)) now =
      ⟨{ st with pending := removePendingPropertyRequest (cleanupExpiredPropertyRequests st.pending now) muid PROGRAM_LIST },
        [], some l⟩ := by
  unfold getProgramList
  rw [hinit, hdev]
  simp [hnp]

lemma getProgramList_not_found {β : Type} (st : MgrState) (muid now : Nat)
    (hinit : st.initialized = true) (hdev : st.hasDevice = true)
    (hnp : isPropertyRequestPending (cleanupExpiredPropertyRequests st.pending now) muid
      PROGRAM_LIST = false) :
    getProgramList (β := β) st muid (some none) now =
      ⟨{ st with pending := addPendingPropertyRequest (cleanupExpiredPropertyRequests st.pending now) muid PROGRAM_LIST now },
        [(muid, PROGRAM_LIST)], none⟩ := by
  unfold getProgramList
  rw [hinit, hdev]
  simp [hnp]

/-! ## At most one pending entry per key -/


lemma atMostOnePerKey_filter (l : List PendingPropertyRequest)
    (f : PendingPropertyRequest → Bool) (h : atMostOnePerKey l) :
    atMostOnePerKey (l.filter f) :=
  List.Pairwise.sublist (List.filter_sublist l) h

lemma atMostOnePerKey_append_new (l : List PendingPropertyRequest) (m : Nat) (p : String)
    (now : Nat) (h : atMostOnePerKey l) (hnp : isPropertyRequestPending l m p = false) :
    atMostOnePerKey (l ++ [⟨m, p, now⟩]) := by
  refine List.pairwise_append.mpr ⟨h, List.pairwise_singleton _ _, ?_⟩
  intro a ha b hb
  rcases List.mem_singleton.mp hb with rfl
  intro hcontra
  have : isPropertyRequestPending l m p = true :=
    (isPending_eq_true_iff l m p).mpr ⟨a, ha, hcontra.1, hcontra.2⟩
  rw [this] at hnp
  exact Bool.noConfusion hnp

lemma atMostOnePerKey_add (l : List PendingPropertyRequest) (m : Nat) (p : String) (now : Nat)
    (h : atMostOnePerKey l) : atMostOnePerKey (addPendingPropertyRequest l m p now) := by
  unfold addPendingPropertyRequest
  by_cases hp : isPropertyRequestPending l m p = true
  · rw [if_pos hp]
    exact h
  · rw [if_neg hp]
    exact atMostOnePerKey_append_new l m p now h (Bool.not_eq_true _ ▸ hp)

lemma getAllCtrlList_pending_preserved {α : Type} (st : MgrState) (muid : Nat)
    (conn : Option (Option (List α))) (now : Nat) (h : atMostOnePerKey st.pending) :
    atMostOnePerKey (getAllCtrlList st muid conn now).state.pending := by
  have hclean : atMostOnePerKey (cleanupExpiredPropertyRequests st.pending now) :=
    atMostOnePerKey_filter st.pending _ h
  by_cases hready : (!st.initialized || !st.hasDevice) = true
  · rw [getAllCtrlList_not_ready st muid conn now hready]
    exact h
  · have hflags : st.initialized = true ∧ st.hasDevice = true := by
      rcases hi : st.initialized with _ | _ <;> rcases hd : st.hasDevice with _ | _ <;>
        simp [hi, hd] at hready ⊢
    rcases conn with _ | cached
    · rw [getAllCtrlList_no_connection st muid now]
      exact h
    · by_cases hp : isPropertyRequestPending (cleanupExpiredPropertyRequests st.pending now)
          muid ALL_CTRL_LIST = true
      · rcases cached with _ | l
        · rw [getAllCtrlList_already_pending st muid now none hflags.1 hflags.2 (Or.inl rfl) hp]
          exact hclean
        · by_cases hl : l = []
          · subst hl
            rw [getAllCtrlList_already_pending st muid now (some []) hflags.1 hflags.2
              (Or.inr rfl) hp]
            exact hclean
          · rw [getAllCtrlList_cached_nonempty st muid now l hl hflags.1 hflags.2]
            exact atMostOnePerKey_filter _ _ hclean
      · have hnp : isPropertyRequestPending (cleanupExpiredPropertyRequests st.pending now)
            muid ALL_CTRL_LIST = false := Bool.not_eq_true _ ▸ hp
        rcases cached with _ | l
        · rw [getAllCtrlList_requests st muid now none hflags.1 hflags.2 (Or.inl rfl) hnp]
          exact atMostOnePerKey_append_new _ _ _ _ hclean hnp
        · by_cases hl : l = []
          · subst hl
            rw [getAllCtrlList_requests st muid now (some []) hflags.1 hflags.2 (Or.inr rfl) hnp]
            exact atMostOnePerKey_append_new _ _ _ _ hclean hnp
          · rw [getAllCtrlList_cached_nonempty st muid now l hl hflags.1 hflags.2]
            exact atMostOnePerKey_filter _ _ hclean

lemma getProgramList_pending_preserved {β : Type} (st : MgrState) (muid : Nat)
    (conn : Option (Option (List β))) (now : Nat) (h : atMostOnePerKey st.pending) :
    atMostOnePerKey (getProgramList st muid conn now).state.pending := by
  have hclean : atMostOnePerKey (cleanupExpiredPropertyRequests st.pending now) :=
    atMostOnePerKey_filter st.pending _ h
  by_cases hready : (!st.initialized || !st.hasDevice) = true
  · rw [getProgramList_not_ready st muid conn now hready]
    exact h
  · have hflags : st.initialized = true ∧ st.hasDevice = true := by
      rcases hi : st.initialized with _ | _ <;> rcases hd : st.hasDevice with _ | _ <;>
        simp [hi, hd] at hready ⊢
    rcases conn with _ | found
    · rw [getProgramList_no_connection st muid now]
      exact h
    · by_cases hp : isPropertyRequestPending (cleanupExpiredPropertyRequests st.pending now)
          muid PROGRAM_LIST = true
      · rw [getProgramList_already_pending st muid now found hflags.1 hflags.2 hp]
        exact hclean
      · have hnp : isPropertyRequestPending (cleanupExpiredPropertyRequests st.pending now)
            muid PROGRAM_LIST = false := Bool.not_eq_true _ ▸ hp
        rcases found with _ | l
        · rw [getProgramList_not_found st muid now hflags.1 hflags.2 hnp]
          exact atMostOnePerKey_add _ _ _ _ hclean
        · rw [getProgramList_found st muid now l hflags.1 hflags.2 hnp]
          exact atMostOnePerKey_filter _ _ hclean

/-! ## Discovery and endpoint replies (C6, C7) -/

lemma runCI_discovery_known (m : Nat) (N : Nat) : ∀ st : MgrState,
    st.discovered.any (fun d => d.muid = m) = true →
    runCI st (List.replicate N (.discoveryReply m)) = (st, 0) := by
  induction N with
  | zero => intro st _; rfl
  | succ n ih =>
    intro st h
    simp only [List.replicate_succ, runCI, stepCI, onDiscoveryReply, h, if_true, ih st h]

/-- C6: after N ≥ 1 Discovery Replies carrying the same source MUID the
registry holds exactly one entry with that MUID; a reply for a known MUID is a
no-op firing no devices-changed notification, while the first reply for an
unseen MUID appends one placeholder entry and fires the notification once. -/
theorem discovery_reply_idempotent (st : MgrState) (m N : Nat) (hN : 1 ≤ N)
    (hunseen : st.discovered.any (fun d => d.muid = m) = false) :
    ((runCI st (List.replicate N (.discoveryReply m))).1.discovered.countP
        (fun d => d.muid = m)) = 1 ∧
      (∀ st' : MgrState, st'.discovered.any (fun d => d.muid = m) = true →
        onDiscoveryReply st' m = (st', 0)) ∧
      onDiscoveryReply st m =
        ({ st with discovered := st.discovered ++
            [mkMidiCIDeviceInfo m "MIDI-CI Device" "Unknown" "MIDI-CI Device" "1.0" 0 4096] },
          1) := by
  have hknown : ∀ st' : MgrState, st'.discovered.any (fun d => d.muid = m) = true →
      onDiscoveryReply st' m = (st', 0) := by
    intro st' h
    simp [onDiscoveryReply, h]
  have hfirst : onDiscoveryReply st m =
      ({ st with discovered := st.discovered ++
          [mkMidiCIDeviceInfo m "MIDI-CI Device" "Unknown" "MIDI-CI Device" "1.0" 0 4096] },
        1) := by
    simp [onDiscoveryReply, hunseen]
  refine ⟨?_, hknown, hfirst⟩
  obtain ⟨n, rfl⟩ : ∃ n, N = n + 1 := ⟨N - 1, by omega⟩
  have hcount0 : st.discovered.countP (fun d => d.muid = m) = 0 := by
    rw [List.countP_eq_zero]
    intro d hd
    simpa using List.any_eq_false.mp hunseen d hd
  have hrun : runCI st (List.replicate (n + 1) (CIEvent.discoveryReply m)) =
      ({ st with discovered := st.discovered ++
          [mkMidiCIDeviceInfo m "MIDI-CI Device" "Unknown" "MIDI-CI Device" "1.0" 0 4096] },
        1) := by
    rw [List.replicate_succ]
    simp only [runCI, stepCI, hfirst]
    rw [runCI_discovery_known m n
      { st with discovered := st.discovered ++
          [mkMidiCIDeviceInfo m "MIDI-CI Device" "Unknown" "MIDI-CI Device" "1.0" 0 4096] }
      (by simp [mkMidiCIDeviceInfo])]
    rfl
  rw [hrun]
  simp [List.countP_append, hcount0, mkMidiCIDeviceInfo]

theorem discovery_reply_idempotent_witness :
    ((runCI ⟨1, true, true, true, [], []⟩
          (List.replicate 3 (.discoveryReply 7))).1.discovered.countP
        (fun d => d.muid = 7)) = 1 := by
  have h := discovery_reply_idempotent ⟨1, true, true, true, [], []⟩ 7 3 (by decide) (by decide)
  exact h.1

lemma markEndpointReady_eq_none (m : Nat) : ∀ l : List MidiCIDeviceInfo,
    l.any (fun d => d.muid = m) = false → markEndpointReady l m = none := by
  intro l
  induction l with
  | nil => intro _; rfl
  | cons d rest ih =>
    intro h
    rw [List.any_cons, Bool.or_eq_false_iff] at h
    have hm : ¬(d.muid = m) := by simpa using h.1
    rw [markEndpointReady, if_neg hm, ih h.2]

/-- Members of the marked list come from the original list, either unchanged
or as the endpoint-ready copy of an original entry with the matching MUID. -/
lemma markEndpointReady_mem (m : Nat) : ∀ (l l' : List MidiCIDeviceInfo),
    markEndpointReady l m = some l' →
    ∀ d' ∈ l', d' ∈ l ∨ ∃ d ∈ l, d.muid = m ∧ d' = { d with endpointReady := true } := by
  intro l
  induction l with
  | nil => intro l' h; simp [markEndpointReady] at h
  | cons d rest ih =>
    intro l' h d' hd'
    rw [markEndpointReady] at h
    by_cases hm : d.muid = m
    · rw [if_pos hm] at h
      obtain rfl : { d with endpointReady := true } :: rest = l' := by
        injection h
      rcases List.mem_cons.mp hd' with rfl | hmem
      · exact Or.inr ⟨d, List.mem_cons_self d rest, hm, rfl⟩
      · exact Or.inl (List.mem_cons_of_mem d hmem)
    · rw [if_neg hm] at h
      cases hrec : markEndpointReady rest m with
      | none => rw [hrec] at h; exact absurd h (by simp)
      | some rest' =>
        rw [hrec] at h
        obtain rfl : d :: rest' = l' := by injection h
        rcases List.mem_cons.mp hd' with rfl | hmem
        · exact Or.inl (List.mem_cons_self _ _)
        · rcases ih rest' hrec d' hmem with hin | ⟨e, he, hem, heq⟩
          · exact Or.inl (List.mem_cons_of_mem d hin)
          · exact Or.inr ⟨e, List.mem_cons_of_mem d he, hem, heq⟩

lemma markEndpointReady_sets (m : Nat) : ∀ (l l' : List MidiCIDeviceInfo),
    l.Pairwise (fun a b => a.muid ≠ b.muid) →
    markEndpointReady l m = some l' →
    ∀ d' ∈ l', d'.muid = m → d'.endpointReady = true := by
  intro l
  induction l with
  | nil => intro l' _ h; simp [markEndpointReady] at h
  | cons d rest ih =>
    intro l' hp h d' hd' hdm
    rw [List.pairwise_cons] at hp
    rw [markEndpointReady] at h
    by_cases hm : d.muid = m
    · rw [if_pos hm] at h
      obtain rfl : { d with endpointReady := true } :: rest = l' := by injection h
      rcases List.mem_cons.mp hd' with rfl | hmem
      · rfl
      · exact absurd (hdm.trans hm.symm) (hp.1 d' hmem).symm
    · rw [if_neg hm] at h
      cases hrec : markEndpointReady rest m with
      | none => rw [hrec] at h; exact absurd h (by simp)
      | some rest' =>
        rw [hrec] at h
        obtain rfl : d :: rest' = l' := by injection h
        rcases List.mem_cons.mp hd' with rfl | hmem
        · exact absurd hdm hm
        · exact ih rest' hp.2 hrec d' hmem hdm

lemma markEndpointReady_isSome (m : Nat) : ∀ l : List MidiCIDeviceInfo,
    l.any (fun d => d.muid = m) = true → (markEndpointReady l m).isSome = true := by
  intro l
  induction l with
  | nil => intro h; simp at h
  | cons d rest ih =>
    intro h
    rw [markEndpointReady]
    by_cases hm : d.muid = m
    · rw [if_pos hm]; rfl
    · rw [if_neg hm]
      rw [List.any_cons] at h
      have hrest : rest.any (fun d => d.muid = m) = true := by
        rcases Bool.or_eq_true_iff.mp h with hh | hh
        · exact absurd (of_decide_eq_true hh) hm
        · exact hh
      cases hrec : markEndpointReady rest m with
      | none => rw [hrec] at ih; exact absurd (ih hrest) (by simp)
      | some rest' => simp

/-- C7: a discovered device's `endpoint_ready` stays false through any trace of
replies containing no Endpoint Reply for its MUID; an Endpoint Reply for a
registered MUID marks that device ready and fires exactly one devices-changed
notification; an Endpoint Reply for an unknown MUID changes nothing and fires
none. -/
theorem endpoint_readiness_gating :
    (∀ (st : MgrState) (m : Nat) (trace : List CIEvent),
        (∀ d ∈ st.discovered, d.muid = m → d.endpointReady = false) →
        (∀ e ∈ trace, e ≠ CIEvent.endpointReply m) →
        ∀ d ∈ (runCI st trace).1.discovered, d.muid = m → d.endpointReady = false) ∧
      (∀ (st : MgrState) (m : Nat),
        st.discovered.Pairwise (fun a b => a.muid ≠ b.muid) →
        st.discovered.any (fun d => d.muid = m) = true →
        (onEndpointReply st m).2 = 1 ∧
          ∀ d ∈ (onEndpointReply st m).1.discovered, d.muid = m → d.endpointReady = true) ∧
      (∀ (st : MgrState) (m : Nat),
        st.discovered.any (fun d => d.muid = m) = false →
        onEndpointReply st m = (st, 0)) := by
  refine ⟨?_, ?_, ?_⟩
  · intro st m trace
    induction trace generalizing st with
    | nil => intro hready _ d hd; exact hready d hd
    | cons e es ih =>
      intro hready htrace d hd
      have htail : ∀ e' ∈ es, e' ≠ CIEvent.endpointReply m :=
        fun e' he' => htrace e' (List.mem_cons_of_mem e he')
      have hstep : ∀ d' ∈ (stepCI st e).1.discovered, d'.muid = m → d'.endpointReady = false := by
        cases e with
        | discoveryReply m' =>
          intro d' hd' hdm
          simp only [stepCI, onDiscoveryReply] at hd'
          by_cases hknown : st.discovered.any (fun d => d.muid = m') = true
          · rw [if_pos hknown] at hd'
            exact hready d' hd' hdm
          · rw [if_neg hknown] at hd'
            rcases List.mem_append.mp hd' with hmem | hmem
            · exact hready d' hmem hdm
            · rcases List.mem_singleton.mp hmem with rfl
              rfl
        | endpointReply m' =>
          have hne : m' ≠ m := by
            intro hcontra
            exact htrace (CIEvent.endpointReply m') (List.mem_cons_self _ _) (by rw [hcontra])
          intro d' hd' hdm
          simp only [stepCI, onEndpointReply] at hd'
          cases hrec : markEndpointReady st.discovered m' with
          | none => rw [hrec] at hd'; exact hready d' hd' hdm
          | some devs =>
            rw [hrec] at hd'
            rcases markEndpointReady_mem m' st.discovered devs hrec d' hd' with hmem |
                ⟨d0, hd0, hd0m, rfl⟩
            · exact hready d' hmem hdm
            · exfalso
              have hmm : d0.muid = m := hdm
              exact hne (hd0m.symm.trans hmm)
      have : (runCI st (e :: es)).1 = (runCI (stepCI st e).1 es).1 := by
        simp [runCI]
      rw [this] at hd
      exact ih (stepCI st e).1 hstep htail d hd
  · intro st m hp hany
    have hsome := markEndpointReady_isSome m st.discovered hany
    cases hrec : markEndpointReady st.discovered m with
    | none => rw [hrec] at hsome; exact absurd hsome (by simp)
    | some devs =>
      constructor
      · simp [onEndpointReply, hrec]
      · intro d hd hdm
        have hdevs : (onEndpointReply st m).1.discovered = devs := by
          simp [onEndpointReply, hrec]
        rw [hdevs] at hd
        exact markEndpointReady_sets m st.discovered devs hp hrec d hd hdm
  · intro st m hnone
    simp [onEndpointReply, markEndpointReady_eq_none m st.discovered hnone]

theorem endpoint_readiness_gating_witness :
    (onEndpointReply ⟨1, true, true, true,
        [mkMidiCIDeviceInfo 7 "MIDI-CI Device" "Unknown" "MIDI-CI Device" "1.0" 0 4096],
        []⟩ 7).2 = 1 := by
  have h := endpoint_readiness_gating.2.1 ⟨1, true, true, true,
      [mkMidiCIDeviceInfo 7 "MIDI-CI Device" "Unknown" "MIDI-CI Device" "1.0" 0 4096], []⟩ 7
    (by simp) (by decide)
  exact h.1

/-! ## Connection edge-triggering (C8) -/

/-- C8: over any sequence of `updateUIConnectionState` evaluations the
connection-changed callback fires exactly when `inputOpen AND outputOpen`
differs from the stored previous value, and with that new value; starting
disconnected, evaluating (true,true) twice fires once with true and a
following (true,false) fires a second time with false. -/
theorem connection_edge_triggering :
    (∀ (st : ConnUIState) (i o v : Bool),
        (updateUIConnectionState st i o).2 = some v ↔
          ((i && o) ≠ st.previousConnectionState ∧ v = (i && o))) ∧
      (∀ (st : ConnUIState) (i o : Bool), (updateUIConnectionState st i o).2 = none ↔
          (i && o) = st.previousConnectionState) ∧
      runConnEvaluations ⟨false⟩ [(true, true), (true, true), (true, false)] =
        (⟨false⟩, [true, false]) := by
  refine ⟨?_, ?_, by decide⟩
  · intro st i o v
    unfold updateUIConnectionState hasValidMidiPair
    by_cases h : (i && o) = st.previousConnectionState
    · simp [h]
    · rw [if_pos h]
      simp only [Option.some_inj]
      exact ⟨fun hv => ⟨h, hv.symm⟩, fun hv => hv.2.symm⟩
  · intro st i o
    unfold updateUIConnectionState hasValidMidiPair
    by_cases h : (i && o) = st.previousConnectionState
    · simp [h]
    · simp [h]

/-! ## Initialization and shutdown (C10) -/

/-- C10: shutting down an initialized session clears the discovered-device
registry and the pending table and resets `initialized_`, but leaves `muid_`
as chosen by the last initialize: `getMuid` still returns it, and it is
nonzero when a nonzero MUID was supplied. -/
theorem shutdown_preserves_muid (st : MgrState) (muid gen : Nat)
    (hinit : st.initialized = false) (hmuid : muid ≠ 0) :
    (shutdown (initializeMgr st muid gen).1).1.discovered = [] ∧
      (shutdown (initializeMgr st muid gen).1).1.pending = [] ∧
      (shutdown (initializeMgr st muid gen).1).1.initialized = false ∧
      getMuid (shutdown (initializeMgr st muid gen).1).1 = muid ∧
      getMuid (shutdown (initializeMgr st muid gen).1).1 =
        getMuid (initializeMgr st muid gen).1 ∧
      getMuid (shutdown (initializeMgr st muid gen).1).1 ≠ 0 := by
  simp [initializeMgr, shutdown, clearDiscoveredDevices, getMuid, hinit, hmuid]

theorem shutdown_preserves_muid_witness :
    getMuid (shutdown (initializeMgr ⟨0, false, false, false, [], []⟩ 0x1234567 0).1).1 =
      0x1234567 :=
  (shutdown_preserves_muid ⟨0, false, false, false, [], []⟩ 0x1234567 0 rfl (by decide)).2.2.2.1

/-! ## Property queries (C3, C4, C5, C9) -/

/-- C3 counterexample: with an established connection, a cached-but-empty
AllCtrlList and no pending request, `getAllCtrlList` does register the pending
request and issue the outbound request, but returns the cached empty list
(`return ret;` at the end of the function) — not `std::nullopt` as claimed. -/
theorem getAllCtrlList_empty_not_none :
    (getAllCtrlList (α := Nat) ⟨1, true, true, true, [], []⟩ 5 (some (some [])) 0).result =
        some [] ∧
      (getAllCtrlList (α := Nat) ⟨1, true, true, true, [], []⟩ 5 (some (some [])) 0).result ≠
        none ∧
      (getAllCtrlList (α := Nat) ⟨1, true, true, true, [], []⟩ 5 (some (some [])) 0).sent =
        [(5, ALL_CTRL_LIST)] ∧
      (getAllCtrlList (α := Nat)
          ⟨1, true, true, true, [], []⟩ 5 (some (some [])) 0).state.pending =
        [⟨5, ALL_CTRL_LIST, 0⟩] := by
  refine ⟨?_, ?_, ?_, ?_⟩ <;> decide

/-- C3 (amended): with an established connection, a cached value that parses to
an empty list, and no pending request for `(muid, AllCtrlList)` after the expiry
sweep, `getAllCtrlList` registers a new pending request stamped `now`, issues
exactly one outbound get-property-data request, and returns the cached empty
list (`some []`) — not `none` (only the value-absent case returns `none`). -/
theorem getAllCtrlList_empty_triggers_request {α : Type} (st : MgrState) (muid now : Nat)
    (hinit : st.initialized = true) (hdev : st.hasDevice = true)
    (hnp : isPropertyRequestPending (cleanupExpiredPropertyRequests st.pending now) muid
      ALL_CTRL_LIST = false) :
    getAllCtrlList (α := α) st muid (some (some [])) now =
      ⟨{ st with pending := cleanupExpiredPropertyRequests st.pending now ++ [⟨muid, ALL_CTRL_LIST, now⟩] },
        [(muid, ALL_CTRL_LIST)], some []⟩ :=
  getAllCtrlList_requests st muid now (some []) hinit hdev (Or.inr rfl) hnp

theorem getAllCtrlList_empty_triggers_request_witness :
    getAllCtrlList (α := Nat) ⟨1, true, true, true, [], []⟩ 5 (some (some [])) 0 =
      ⟨⟨1, true, true, true, [], [⟨5, ALL_CTRL_LIST, 0⟩]⟩, [(5, ALL_CTRL_LIST)], some []⟩ := by
  have h := getAllCtrlList_empty_triggers_request (α := Nat) ⟨1, true, true, true, [], []⟩ 5 0
    rfl rfl (by decide)
  simpa [cleanupExpiredPropertyRequests] using h

/-- C4: every pending-table operation preserves the at-most-one-entry-per-
`(muid, propertyName)` invariant, and two consecutive `getAllCtrlList` calls
with no reply in between (the second at most 30 seconds later) issue exactly
one outbound request: the second call sends nothing and returns `none`. -/
theorem property_request_dedup :
    (∀ (l : List PendingPropertyRequest) (m : Nat) (p : String) (now : Nat),
        atMostOnePerKey l → atMostOnePerKey (addPendingPropertyRequest l m p now)) ∧
      (∀ (l : List PendingPropertyRequest) (m : Nat) (p : String),
        atMostOnePerKey l → atMostOnePerKey (removePendingPropertyRequest l m p)) ∧
      (∀ (l : List PendingPropertyRequest) (now : Nat),
        atMostOnePerKey l → atMostOnePerKey (cleanupExpiredPropertyRequests l now)) ∧
      (∀ (α : Type) (st : MgrState) (muid : Nat) (conn : Option (Option (List α))) (now : Nat),
        atMostOnePerKey st.pending →
        atMostOnePerKey (getAllCtrlList st muid conn now).state.pending) ∧
      (∀ (β : Type) (st : MgrState) (muid : Nat) (conn : Option (Option (List β))) (now : Nat),
        atMostOnePerKey st.pending →
        atMostOnePerKey (getProgramList st muid conn now).state.pending) ∧
      (∀ (α : Type) (st : MgrState) (muid now₁ now₂ : Nat),
        st.initialized = true → st.hasDevice = true →
        isPropertyRequestPending (cleanupExpiredPropertyRequests st.pending now₁) muid
          ALL_CTRL_LIST = false →
        now₁ ≤ now₂ → now₂ - now₁ ≤ 30 →
        (getAllCtrlList (α := α) st muid (some none) now₁).sent = [(muid, ALL_CTRL_LIST)] ∧
          (getAllCtrlList (α := α) (getAllCtrlList (α := α) st muid (some none) now₁).state
            muid (some none) now₂).sent = [] ∧
          (getAllCtrlList (α := α) (getAllCtrlList (α := α) st muid (some none) now₁).state
            muid (some none) now₂).result = none) := by
  refine ⟨atMostOnePerKey_add, fun l m p h => atMostOnePerKey_filter l _ h,
    fun l now h => atMostOnePerKey_filter l _ h,
    fun α st muid conn now h => getAllCtrlList_pending_preserved st muid conn now h,
    fun β st muid conn now h => getProgramList_pending_preserved st muid conn now h,
    ?_⟩
  intro α st muid now₁ now₂ hinit hdev hnp h12 h30
  have hfirst := getAllCtrlList_requests (α := α) st muid now₁ none hinit hdev (Or.inl rfl) hnp
  rw [hfirst]
  have hmemnew : (⟨muid, ALL_CTRL_LIST, now₁⟩ : PendingPropertyRequest) ∈
      cleanupExpiredPropertyRequests
        (cleanupExpiredPropertyRequests st.pending now₁ ++ [⟨muid, ALL_CTRL_LIST, now₁⟩])
        now₂ := by
    rw [mem_cleanup_iff]
    refine ⟨List.mem_append_right _ (List.mem_singleton_self _), ?_⟩
    simpa using h30
  have hp2 : isPropertyRequestPending
      (cleanupExpiredPropertyRequests
        (cleanupExpiredPropertyRequests st.pending now₁ ++ [⟨muid, ALL_CTRL_LIST, now₁⟩])
        now₂) muid ALL_CTRL_LIST = true :=
    (isPending_eq_true_iff _ _ _).mpr ⟨_, hmemnew, rfl, rfl⟩
  have hsecond := getAllCtrlList_already_pending (α := α)
    { st with pending := cleanupExpiredPropertyRequests st.pending now₁
        ++ [⟨muid, ALL_CTRL_LIST, now₁⟩] }
    muid now₂ none hinit hdev (Or.inl rfl) hp2
  rw [hsecond]
  exact ⟨rfl, rfl, rfl⟩

theorem property_request_dedup_witness :
    (getAllCtrlList (α := Nat) ⟨1, true, true, true, [], []⟩ 5 (some none) 0).sent =
        [(5, ALL_CTRL_LIST)] ∧
      (getAllCtrlList (α := Nat)
          (getAllCtrlList (α := Nat) ⟨1, true, true, true, [], []⟩ 5 (some none) 0).state
          5 (some none) 7).sent = [] ∧
      (getAllCtrlList (α := Nat)
          (getAllCtrlList (α := Nat) ⟨1, true, true, true, [], []⟩ 5 (some none) 0).state
          5 (some none) 7).result = none :=
  property_request_dedup.2.2.2.2.2 Nat ⟨1, true, true, true, [], []⟩ 5 0 7 rfl rfl (by decide)
    (by decide) (by decide)

/-- C5: the lazy expiry sweep run at the start of a `getValue`-style call
removes exactly the pending requests older than 30 seconds on the steady
clock (strictly; age exactly 30 survives), and when every pending entry for
`(muid, AllCtrlList)` has expired the same `getAllCtrlList` call issues a
fresh outbound request for that pair. -/
theorem property_request_timeout (st : MgrState) (muid now : Nat)
    (req : PendingPropertyRequest) (hmem : req ∈ st.pending)
    (hinit : st.initialized = true) (hdev : st.hasDevice = true)
    (hexp : ∀ r ∈ st.pending, r.muid = muid → r.propertyName = ALL_CTRL_LIST →
      30 < now - r.requestTime) :
    (30 < now - req.requestTime → req ∉ cleanupExpiredPropertyRequests st.pending now) ∧
      (now - req.requestTime ≤ 30 → req ∈ cleanupExpiredPropertyRequests st.pending now) ∧
      ∀ α : Type, (getAllCtrlList (α := α) st muid (some none) now).sent =
        [(muid, ALL_CTRL_LIST)] := by
  refine ⟨?_, ?_, ?_⟩
  · intro hage hcontra
    have := (mem_cleanup_iff st.pending now req).mp hcontra
    omega
  · intro hage
    exact (mem_cleanup_iff st.pending now req).mpr ⟨hmem, hage⟩
  · intro α
    have hnp : isPropertyRequestPending (cleanupExpiredPropertyRequests st.pending now) muid
        ALL_CTRL_LIST = false := by
      rcases hcase : isPropertyRequestPending (cleanupExpiredPropertyRequests st.pending now)
          muid ALL_CTRL_LIST with _ | _
      · rfl
      · exfalso
        obtain ⟨r, hr, hrm, hrp⟩ := (isPending_eq_true_iff _ _ _).mp hcase
        obtain ⟨hrmem, hrage⟩ := (mem_cleanup_iff st.pending now r).mp hr
        have := hexp r hrmem hrm hrp
        omega
    rw [getAllCtrlList_requests st muid now none hinit hdev (Or.inl rfl) hnp]

theorem property_request_timeout_witness :
    ((⟨5, ALL_CTRL_LIST, 0⟩ : PendingPropertyRequest) ∉
        cleanupExpiredPropertyRequests [⟨5, ALL_CTRL_LIST, 0⟩] 31) ∧
      (getAllCtrlList (α := Nat) ⟨1, true, true, true, [], [⟨5, ALL_CTRL_LIST, 0⟩]⟩ 5
        (some none) 31).sent = [(5, ALL_CTRL_LIST)] := by
  have h := property_request_timeout ⟨1, true, true, true, [], [⟨5, ALL_CTRL_LIST, 0⟩]⟩ 5 31
    ⟨5, ALL_CTRL_LIST, 0⟩ (by decide) rfl rfl (by decide)
  exact ⟨h.1 (by decide), h.2.2 Nat⟩

/-- C9 counterexample: when a pending `(muid, ProgramList)` request exists,
`getProgramList` returns `none` before ever looking at the cached property
values — even though a ProgramList value is found there — and removes no
pending entry, contradicting the claim as stated. -/
theorem getProgramList_pending_blocks_cached :
    (getProgramList (β := Nat) ⟨1, true, true, true, [], [⟨7, PROGRAM_LIST, 0⟩]⟩ 7
        (some (some [42])) 0).result = none ∧
      (getProgramList (β := Nat) ⟨1, true, true, true, [], [⟨7, PROGRAM_LIST, 0⟩]⟩ 7
        (some (some [42])) 0).state.pending = [⟨7, PROGRAM_LIST, 0⟩] ∧
      (getProgramList (β := Nat) ⟨1, true, true, true, [], [⟨7, PROGRAM_LIST, 0⟩]⟩ 7
        (some (some [42])) 0).sent = [] := by
  refine ⟨?_, ?_, ?_⟩ <;> decide

/-- C9 (amended): when no pending `(muid, ProgramList)` request survives the
expiry sweep and a ProgramList value is found in the connection's cached
property values, `getProgramList` parses it, removes any pending entry for the
pair, and returns the parsed list even when empty, issuing no new outbound
request — unlike `getAllCtrlList`, which on an empty cached list issues a
fresh request. -/
theorem getProgramList_returns_cached {β : Type} (st : MgrState) (muid now : Nat) (l : List β)
    (hinit : st.initialized = true) (hdev : st.hasDevice = true)
    (hnpP : isPropertyRequestPending (cleanupExpiredPropertyRequests st.pending now) muid
      PROGRAM_LIST = false)
    (hnpA : isPropertyRequestPending (cleanupExpiredPropertyRequests st.pending now) muid
      ALL_CTRL_LIST = false) :
    getProgramList st muid (some (some l)) now =
      ⟨{ st with pending := removePendingPropertyRequest (cleanupExpiredPropertyRequests st.pending now) muid PROGRAM_LIST },
        [], some l⟩ ∧
      (getAllCtrlList (α := β) st muid (some (some [])) now).sent = [(muid, ALL_CTRL_LIST)] := by
  refine ⟨getProgramList_found st muid now l hinit hdev hnpP, ?_⟩
  rw [getAllCtrlList_requests st muid now (some []) hinit hdev (Or.inr rfl) hnpA]

theorem getProgramList_returns_cached_witness :
    getProgramList (β := Nat) ⟨1, true, true, true, [], []⟩ 7 (some (some [])) 0 =
      ⟨⟨1, true, true, true, [], []⟩, [], some []⟩ := by
  have h := getProgramList_returns_cached (β := Nat) ⟨1, true, true, true, [], []⟩ 7 0 []
    rfl rfl (by decide) (by decide)
  simpa [cleanupExpiredPropertyRequests, removePendingPropertyRequest] using h.1

end UmpKeyboard
